import Mathlib

/-!
# go-auth: session lifecycle and credential verification

A shallow embedding of the authentication service (`internal/auth`), its HTTP
handlers (`api/http`), the auth middleware (`internal/common/middleware`) and the
session reaper (`cmd/worker`).

Modelling conventions
* The database is an explicit `Store` value holding the two relations; every
  SQL statement is a function on it.  A statement can also fail for reasons that
  are not in the data (connection loss, cancellation): each statement takes a
  `Fault`, `none` meaning that the statement is executed by the store.
* `uuid.New()`, `time.Now()` and the bcrypt salt are inputs of the operation
  that reads them.
* Go's `(value, error)` results are `Except Error value`; an operation that can
  change the store returns the store it leaves behind as a second component.
* Instants are natural numbers (nanoseconds), compared at the store's resolution.
-/

namespace GoAuth

/-! ## Data model (`internal/auth/models.go`) -/

abbrev UUID := Nat

abbrev Time := Nat

/-- The constant `time.Hour`, in nanoseconds. -/
def Hour : Nat := 3600000000000

structure User where
  ID : UUID
  Email : String
  HashedPassword : String
  DisplayName : String
  CreatedAt : Time
  UpdatedAt : Time
  LastLogin : Option Time
  Disabled : Bool
deriving DecidableEq, Repr

structure Session where
  ID : UUID
  UserID : UUID
  Token : String
  ExpiresAt : Time
  CreatedAt : Time
deriving DecidableEq, Repr

structure SignupRequest where
  Email : String
  Password : String
  DisplayName : String
deriving DecidableEq, Repr

structure LoginRequest where
  Email : String
  Password : String
deriving DecidableEq, Repr

structure AuthResponse where
  User : User
  Token : String
deriving DecidableEq, Repr

/-! ## Errors -/

/-- An error reported by the database driver. -/
inductive DriverError
  | uniqueViolation (constraintName : String)
  | failure (msg : String)
deriving DecidableEq, Repr

/-- The text of a driver error (its `Error()` method). -/
def DriverError.Error : DriverError → String
  | .uniqueViolation constraintName =>
    "pq: duplicate key value violates unique constraint " ++ constraintName
  | .failure msg => msg

/-- Go error values.  The first four are the package-level variables of
`internal/auth/service.go`, `ErrNoRows` is `sql.ErrNoRows`, `new` is an
`errors.New` evaluated at a call site, `wrap` is `fmt.Errorf` with `%w`. -/
inductive Error
  | ErrUserNotFound
  | ErrInvalidCredentials
  | ErrEmailTaken
  | ErrInvalidToken
  | ErrNoRows
  | new (msg : String)
  | driver (e : DriverError)
  | bcrypt (msg : String)
  | wrap (msg : String) (inner : Error)
deriving DecidableEq, Repr

/-- The function `errors.Is`: the error itself or one it wraps is the target. -/
def errors.Is : Error → Error → Bool
  | .wrap msg inner, target => decide (Error.wrap msg inner = target) || errors.Is inner target
  | err, target => decide (err = target)

/-! ## The credential store -/

structure Store where
  users : List User
  sessions : List Session
deriving DecidableEq, Repr

abbrev Fault := Option DriverError

/-- Modelled from the spec: the schema (the migrations directory is not part of
the sources).  Section 6 gives `users` and `sessions` keyed by their identifier,
with a uniqueness constraint on `users.email` and on `sessions.token`. -/
def Store.WF (st : Store) : Prop :=
  (st.users.map (fun u => u.ID)).Nodup ∧ (st.users.map (fun u => u.Email)).Nodup ∧
  (st.sessions.map (fun s => s.ID)).Nodup ∧ (st.sessions.map (fun s => s.Token)).Nodup

instance (st : Store) : Decidable st.WF := by
  unfold Store.WF; infer_instance

/-- Statement `SELECT COUNT(*) FROM users WHERE email = $1` -/
def Store.countUsersByEmail (st : Store) (fault : Fault) (email : String) : Except Error Nat :=
  match fault with
  | some e => .error (.driver e)
  | none => .ok (st.users.filter (fun u => u.Email == email)).length

/-- Statement `INSERT INTO users (...) VALUES (...)`.
Modelled from the spec: the insert is rejected when the primary key or the
unique email is already present (the constraint names are not in the sources). -/
def Store.insertUser (st : Store) (fault : Fault) (u : User) : Except Error Store :=
  match fault with
  | some e => .error (.driver e)
  | none =>
    if st.users.any (fun x => x.ID == u.ID) then
      .error (.driver (.uniqueViolation "users_pkey"))
    else if st.users.any (fun x => x.Email == u.Email) then
      .error (.driver (.uniqueViolation "users_email_key"))
    else .ok { st with users := st.users ++ [u] }

/-- Statement `SELECT id, email, hashed_password, display_name, created_at, updated_at,
last_login, disabled FROM users WHERE email = $1`, read with `QueryRow(...).Scan`. -/
def Store.selectUserByEmail (st : Store) (fault : Fault) (email : String) : Except Error User :=
  match fault with
  | some e => .error (.driver e)
  | none =>
    match st.users.find? (fun u => u.Email == email) with
    | some u => .ok u
    | none => .error .ErrNoRows

/-- Statement `INSERT INTO sessions (...) VALUES (...)`.
Modelled from the spec: the insert is rejected when the primary key or the
unique token is already present (the constraint names are not in the sources). -/
def Store.insertSession (st : Store) (fault : Fault) (s : Session) : Except Error Store :=
  match fault with
  | some e => .error (.driver e)
  | none =>
    if st.sessions.any (fun x => x.ID == s.ID) then
      .error (.driver (.uniqueViolation "sessions_pkey"))
    else if st.sessions.any (fun x => x.Token == s.Token) then
      .error (.driver (.uniqueViolation "sessions_token_key"))
    else .ok { st with sessions := st.sessions ++ [s] }

/-- The rows after `UPDATE users SET last_login = $1 WHERE id = $2`. -/
def Store.setLastLogin (st : Store) (now : Time) (id : UUID) : Store :=
  let touch : User → User := fun u => if u.ID == id then { u with LastLogin := some now } else u
  { st with users := st.users.map touch }

/-- Statement `UPDATE users SET last_login = $1 WHERE id = $2` -/
def Store.updateLastLogin (st : Store) (fault : Fault) (now : Time) (id : UUID) :
    Except Error Store :=
  match fault with
  | some e => .error (.driver e)
  | none => .ok (st.setLastLogin now id)

/-- Statement `SELECT user_id FROM sessions WHERE token = $1 AND expires_at > $2` -/
def Store.selectSessionUserID (st : Store) (fault : Fault) (token : String) (now : Time) :
    Except Error UUID :=
  match fault with
  | some e => .error (.driver e)
  | none =>
    match st.sessions.find? (fun s => s.Token == token && decide (s.ExpiresAt > now)) with
    | some s => .ok s.UserID
    | none => .error .ErrNoRows

/-- Statement `SELECT id, email, display_name, created_at, updated_at, last_login, disabled
FROM users WHERE id = $1 AND NOT disabled`: the hashed password is not selected,
so the scanned user keeps the zero value in that field. -/
def Store.selectEnabledUserByID (st : Store) (fault : Fault) (id : UUID) : Except Error User :=
  match fault with
  | some e => .error (.driver e)
  | none =>
    match st.users.find? (fun u => u.ID == id && !u.Disabled) with
    | some u => .ok { u with HashedPassword := "" }
    | none => .error .ErrNoRows

/-- The rows after `DELETE FROM sessions WHERE token = $1`, with the number of
rows deleted. -/
def Store.deleteSessionsByToken (st : Store) (token : String) : Store × Nat :=
  ({ st with sessions := st.sessions.filter (fun s => !(s.Token == token)) },
   (st.sessions.filter (fun s => s.Token == token)).length)

/-- The rows after `DELETE FROM sessions WHERE expires_at < NOW()`, with the
number of rows deleted. -/
def Store.deleteExpiredSessions (st : Store) (now : Time) : Store × Nat :=
  ({ st with sessions := st.sessions.filter (fun s => !decide (s.ExpiresAt < now)) },
   (st.sessions.filter (fun s => decide (s.ExpiresAt < now))).length)

/-- Modelled from the spec: the admin path that mutates `disabled` (section 3:
the flag is "mutated only by an out-of-scope admin path"); no code of the
repository writes the flag after the insert. -/
def Store.setDisabled (st : Store) (id : UUID) (flag : Bool) : Store :=
  let touch : User → User := fun u => if u.ID == id then { u with Disabled := flag } else u
  { st with users := st.users.map touch }

/-! ## Password hashing (`golang.org/x/crypto/bcrypt`, external) -/

/-- The two bcrypt functions the service calls.  `CompareHashAndPassword` is
`true` when the Go function returns a nil error. -/
structure Bcrypt where
  GenerateFromPassword : (password : String) → (cost : Nat) → (salt : Nat) → Except Error String
  CompareHashAndPassword : (hashedPassword : String) → (password : String) → Bool

/-- The constant `bcrypt.DefaultCost`. -/
def Bcrypt.DefaultCost : Nat := 10

/-! ## The service (`internal/auth/service.go`) -/

namespace auth

/-- What `CreateUser` reads from its environment. -/
structure CreateUserEnv where
  faultCount : Fault
  faultInsert : Fault
  salt : Nat
  newID : UUID
  nowCreated : Time
  nowUpdated : Time

/-- Method `Service.CreateUser`.  The `SELECT COUNT(*)` and the `INSERT` are two
statements outside any transaction: `concurrent` is what other requests commit
between them. -/
def CreateUserWith (bc : Bcrypt) (env : CreateUserEnv) (concurrent : Store → Store)
    (st : Store) (req : SignupRequest) : Except Error User × Store :=
  match st.countUsersByEmail env.faultCount req.Email with
  | .error err => (.error (.wrap "error checking email" err), st)
  | .ok count =>
    if count > 0 then (.error .ErrEmailTaken, st) else
    match bc.GenerateFromPassword req.Password Bcrypt.DefaultCost env.salt with
    | .error err => (.error (.wrap "error hashing password" err), st)
    | .ok hashedPassword =>
      let user : User :=
        { ID := env.newID
          Email := req.Email
          HashedPassword := hashedPassword
          DisplayName := req.DisplayName
          CreatedAt := env.nowCreated
          UpdatedAt := env.nowUpdated
          LastLogin := none
          Disabled := false }
      match (concurrent st).insertUser env.faultInsert user with
      | .error err => (.error (.wrap "error creating user" err), concurrent st)
      | .ok st' => (.ok user, st')

/-- Method `Service.CreateUser` with no other request in between. -/
def CreateUser (bc : Bcrypt) (env : CreateUserEnv) (st : Store) (req : SignupRequest) :
    Except Error User × Store :=
  CreateUserWith bc env id st req

/-- What `Login` reads from its environment. -/
structure LoginEnv where
  faultSelect : Fault
  faultInsert : Fault
  faultUpdate : Fault
  sessionID : UUID
  token : String
  nowExpires : Time
  nowCreated : Time
  nowLastLogin : Time

/-- Method `Service.Login` -/
def Login (bc : Bcrypt) (env : LoginEnv) (st : Store) (req : LoginRequest) :
    Except Error (User × Session) × Store :=
  match st.selectUserByEmail env.faultSelect req.Email with
  | .error err =>
    if err = .ErrNoRows then (.error .ErrUserNotFound, st)
    else (.error (.wrap "error fetching user" err), st)
  | .ok user =>
    if user.Disabled then (.error (.new "account is disabled"), st) else
    if !bc.CompareHashAndPassword user.HashedPassword req.Password then
      (.error .ErrInvalidCredentials, st)
    else
      let session : Session :=
        { ID := env.sessionID
          UserID := user.ID
          Token := env.token
          ExpiresAt := env.nowExpires + 24 * Hour
          CreatedAt := env.nowCreated }
      match st.insertSession env.faultInsert session with
      | .error err => (.error (.wrap "error creating session" err), st)
      | .ok st1 =>
        let now := env.nowLastLogin
        let user := { user with LastLogin := some now }
        match st1.updateLastLogin env.faultUpdate now user.ID with
        | .error err => (.error (.wrap "error updating last login" err), st1)
        | .ok st2 => (.ok (user, session), st2)

/-- Method `Service.GetUserByToken`, with `now` the reading of `time.Now()`. -/
def GetUserByToken (faultSession faultUser : Fault) (st : Store) (now : Time)
    (token : String) : Except Error User :=
  match st.selectSessionUserID faultSession token now with
  | .error err =>
    if err = .ErrNoRows then .error .ErrInvalidToken
    else .error (.wrap "error fetching session" err)
  | .ok sessionUserID =>
    match st.selectEnabledUserByID faultUser sessionUserID with
    | .error err =>
      if err = .ErrNoRows then .error .ErrUserNotFound
      else .error (.wrap "error fetching user" err)
    | .ok user => .ok user

/-- Method `Service.Logout`: the error (`none` for nil) and the store left behind. -/
def Logout (faultExec faultRows : Fault) (st : Store) (token : String) : Option Error × Store :=
  match faultExec with
  | some e => (some (.wrap "error deleting session" (.driver e)), st)
  | none =>
    let result := st.deleteSessionsByToken token
    match faultRows with
    | some e => (some (.wrap "error getting rows affected" (.driver e)), result.1)
    | none =>
      if result.2 = 0 then (some .ErrInvalidToken, result.1)
      else (none, result.1)

end auth

/-! ## A model of the parts of `net/http` and `context` the handlers use -/

/-- The constants `http.SameSite...Mode`. -/
inductive SameSite
  | unset
  | SameSiteDefaultMode
  | SameSiteLaxMode
  | SameSiteStrictMode
  | SameSiteNoneMode
deriving DecidableEq, Repr

structure Cookie where
  Name : String
  Value : String
  Path : String
  MaxAge : Int
  HttpOnly : Bool
  Secure : Bool
  SameSite : SameSite
deriving DecidableEq, Repr

/-- A request context: the values attached with `context.WithValue`, newest first. -/
structure Context where
  values : List (String × User)
deriving DecidableEq, Repr

def Context.WithValue (ctx : Context) (key : String) (val : User) : Context :=
  { values := (key, val) :: ctx.values }

def Context.Value (ctx : Context) (key : String) : Option User :=
  (ctx.values.find? (fun kv => kv.1 == key)).map (fun kv => kv.2)

/-- An inbound request.  `Cookies` is the parsed `Cookie` header, `Header` the
other header lines under their canonical keys, `TLS` is `r.TLS != nil`. -/
structure Request where
  Method : String
  Body : String
  Header : List (String × String)
  Cookies : List Cookie
  TLS : Bool
  ctx : Context
deriving DecidableEq, Repr

/-- Method `Request.Cookie`: the first cookie of that name, `none` for `ErrNoCookie`. -/
def Request.Cookie (r : Request) (name : String) : Option Cookie :=
  if name = "" then none else r.Cookies.find? (fun c => c.Name == name)

/-- Method `Header.Get`: the first value under the key, the empty string if there is none. -/
def Request.HeaderGet (r : Request) (key : String) : String :=
  match r.Header.find? (fun kv => kv.1 == key) with
  | some kv => kv.2
  | none => ""

def Request.WithContext (r : Request) (ctx : Context) : Request :=
  { r with ctx := ctx }

/-- The function `strings.HasPrefix`. -/
def strings.HasPrefix (s pre : String) : Bool :=
  pre.data.isPrefixOf s.data

/-- The function `strings.TrimPrefix`. -/
def strings.TrimPrefix (s pre : String) : String :=
  if strings.HasPrefix s pre then String.mk (s.data.drop pre.data.length) else s

/-- What a handler writes to the body. -/
inductive Written
  | text (s : String)
  | jsonUser (u : User)
  | jsonAuthResponse (a : AuthResponse)
deriving DecidableEq, Repr

/-- The state of an `http.ResponseWriter`: `Status` is `none` until the status
line is written. -/
structure ResponseWriter where
  Header : List (String × String)
  SetCookies : List Cookie
  Status : Option Nat
  Body : List Written
deriving DecidableEq, Repr

def ResponseWriter.fresh : ResponseWriter :=
  { Header := [], SetCookies := [], Status := none, Body := [] }

def ResponseWriter.HeaderSet (w : ResponseWriter) (key value : String) : ResponseWriter :=
  { w with Header := (key, value) :: w.Header.filter (fun kv => !(kv.1 == key)) }

/-- Method `WriteHeader`: only the first status written counts. -/
def ResponseWriter.WriteHeader (w : ResponseWriter) (code : Nat) : ResponseWriter :=
  match w.Status with
  | some _ => w
  | none => { w with Status := some code }

/-- Method `Write`: writes the status 200 first if none was written. -/
def ResponseWriter.Write (w : ResponseWriter) (data : Written) : ResponseWriter :=
  let w1 := w.WriteHeader 200
  { w1 with Body := w1.Body ++ [data] }

/-- The function `http.SetCookie`. -/
def SetCookie (w : ResponseWriter) (c : Cookie) : ResponseWriter :=
  { w with SetCookies := w.SetCookies ++ [c] }

/-- The function `http.Error`. -/
def httpError (w : ResponseWriter) (error : String) (code : Nat) : ResponseWriter :=
  let w1 := w.HeaderSet "Content-Type" "text/plain; charset=utf-8"
  let w2 := w1.HeaderSet "X-Content-Type-Options" "nosniff"
  let w3 := w2.WriteHeader code
  w3.Write (.text (error ++ "\n"))

def StatusCreated : Nat := 201
def StatusNoContent : Nat := 204
def StatusBadRequest : Nat := 400
def StatusUnauthorized : Nat := 401
def StatusMethodNotAllowed : Nat := 405
def StatusConflict : Nat := 409
def StatusInternalServerError : Nat := 500

/-- A handler, run against the store. -/
abbrev Handler := Store → ResponseWriter → Request → ResponseWriter × Store

/-! ## The HTTP handlers (`api/http/auth_handler.go`) -/

namespace handlers

/-- The function `getTokenFromRequest` of `api/http/auth_handler.go`. -/
def getTokenFromRequest (r : Request) : String :=
  match r.Cookie "session_token" with
  | some cookie => cookie.Value
  | none =>
    let authHeader := r.HeaderGet "Authorization"
    if authHeader != "" && strings.HasPrefix authHeader "Bearer " then
      strings.TrimPrefix authHeader "Bearer "
    else ""

/-- Method `AuthHandler.handleSignup`; `decode` is the JSON decoding of the body. -/
def handleSignup (bc : Bcrypt) (decode : String → Option SignupRequest)
    (env : auth.CreateUserEnv) (concurrent : Store → Store) : Handler := fun st w r =>
  if r.Method != "POST" then (httpError w "Method not allowed" StatusMethodNotAllowed, st) else
  match decode r.Body with
  | none => (httpError w "Invalid request" StatusBadRequest, st)
  | some req =>
    match auth.CreateUserWith bc env concurrent st req with
    | (.error err, st1) =>
      if errors.Is err .ErrEmailTaken then
        (httpError w "Email already taken" StatusConflict, st1)
      else (httpError w "Internal server error" StatusInternalServerError, st1)
    | (.ok user, st1) =>
      let w1 := w.HeaderSet "Content-Type" "application/json"
      let w2 := w1.WriteHeader StatusCreated
      (w2.Write (.jsonUser user), st1)

/-- Method `AuthHandler.handleLogin`; `decode` is the JSON decoding of the body. -/
def handleLogin (bc : Bcrypt) (decode : String → Option LoginRequest)
    (env : auth.LoginEnv) : Handler := fun st w r =>
  if r.Method != "POST" then (httpError w "Method not allowed" StatusMethodNotAllowed, st) else
  match decode r.Body with
  | none => (httpError w "Invalid request" StatusBadRequest, st)
  | some req =>
    match auth.Login bc env st req with
    | (.error err, st1) =>
      if errors.Is err .ErrUserNotFound || errors.Is err .ErrInvalidCredentials then
        (httpError w "Invalid credentials" StatusUnauthorized, st1)
      else (httpError w "Internal server error" StatusInternalServerError, st1)
    | (.ok (user, session), st1) =>
      let w1 := SetCookie w
        { Name := "session_token"
          Value := session.Token
          Path := "/"
          MaxAge := 0
          HttpOnly := true
          Secure := r.TLS
          SameSite := .SameSiteStrictMode }
      let response : AuthResponse := { User := user, Token := session.Token }
      let w2 := w1.HeaderSet "Content-Type" "application/json"
      (w2.Write (.jsonAuthResponse response), st1)

/-- Method `AuthHandler.handleLogout` -/
def handleLogout (faultExec faultRows : Fault) : Handler := fun st w r =>
  if r.Method != "POST" then (httpError w "Method not allowed" StatusMethodNotAllowed, st) else
  let token := getTokenFromRequest r
  if token = "" then (httpError w "Unauthorized" StatusUnauthorized, st) else
  match auth.Logout faultExec faultRows st token with
  | (some err, st1) =>
    if errors.Is err .ErrInvalidToken then
      (httpError w "Invalid token" StatusUnauthorized, st1)
    else (httpError w "Internal server error" StatusInternalServerError, st1)
  | (none, st1) =>
    let w1 := SetCookie w
      { Name := "session_token"
        Value := ""
        Path := "/"
        MaxAge := -1
        HttpOnly := true
        Secure := false
        SameSite := .unset }
    (w1.WriteHeader StatusNoContent, st1)

/-- Method `AuthHandler.handleGetCurrentUser` -/
def handleGetCurrentUser (faultSession faultUser : Fault) (now : Time) : Handler := fun st w r =>
  if r.Method != "GET" then (httpError w "Method not allowed" StatusMethodNotAllowed, st) else
  let token := getTokenFromRequest r
  if token = "" then (httpError w "Unauthorized" StatusUnauthorized, st) else
  match auth.GetUserByToken faultSession faultUser st now token with
  | .error err =>
    if errors.Is err .ErrInvalidToken || errors.Is err .ErrUserNotFound then
      (httpError w "Unauthorized" StatusUnauthorized, st)
    else (httpError w "Internal server error" StatusInternalServerError, st)
  | .ok user =>
    let w1 := w.HeaderSet "Content-Type" "application/json"
    (w1.Write (.jsonUser user), st)

end handlers

/-! ## The auth middleware (`internal/common/middleware/auth.go`) -/

namespace middleware

def UserContextKey : String := "user"

/-- The function `getTokenFromRequest` of `internal/common/middleware/auth.go`. -/
def getTokenFromRequest (r : Request) : String :=
  match r.Cookie "session_token" with
  | some cookie => cookie.Value
  | none =>
    let authHeader := r.HeaderGet "Authorization"
    if authHeader != "" && strings.HasPrefix authHeader "Bearer " then
      strings.TrimPrefix authHeader "Bearer "
    else ""

/-- Method `AuthMiddleware.RequireAuth`, with `now` the reading of `time.Now()`
inside `GetUserByToken`. -/
def RequireAuth (faultSession faultUser : Fault) (now : Time) (next : Handler) : Handler :=
  fun st w r =>
    let token := getTokenFromRequest r
    if token = "" then (httpError w "Unauthorized" StatusUnauthorized, st) else
    match auth.GetUserByToken faultSession faultUser st now token with
    | .error _ => (httpError w "Unauthorized" StatusUnauthorized, st)
    | .ok user =>
      let ctx := r.ctx.WithValue UserContextKey user
      next st w (r.WithContext ctx)

def GetUserFromContext (ctx : Context) : Option User :=
  ctx.Value UserContextKey

end middleware

/-! ## The session reaper (`cmd/worker/main.go`) -/

namespace worker

/-- The function `cleanupExpiredSessions`, with `now` the store's `NOW()`: the
store left behind and the lines logged. -/
def cleanupExpiredSessions (faultExec faultRows : Fault) (st : Store) (now : Time) :
    Store × List String :=
  match faultExec with
  | some err => (st, ["Error cleaning up expired sessions: " ++ err.Error])
  | none =>
    let result := st.deleteExpiredSessions now
    match faultRows with
    | some err => (result.1, ["Error getting rows affected: " ++ err.Error])
    | none =>
      if result.2 > 0 then
        (result.1, ["Cleaned up " ++ toString result.2 ++ " expired sessions"])
      else (result.1, [])

end worker

/-! ## Statement-level transitions of the store -/

/-- One committed write on the store: the five writing statements of the
repository and the admin write of the `disabled` flag.  Every interleaving of
concurrent requests and reaper ticks is a sequence of such steps. -/
inductive Step : Store → Store → Prop
  | insertUser {st st1 : Store} (u : User) (h : st.insertUser none u = .ok st1) : Step st st1
  | insertSession {st st1 : Store} (s : Session) (h : st.insertSession none s = .ok st1) :
      Step st st1
  | setLastLogin {st : Store} (now : Time) (id : UUID) : Step st (st.setLastLogin now id)
  | deleteSessionsByToken {st : Store} (token : String) :
      Step st (st.deleteSessionsByToken token).1
  | deleteExpiredSessions {st : Store} (now : Time) : Step st (st.deleteExpiredSessions now).1
  | setDisabled {st : Store} (id : UUID) (flag : Bool) : Step st (st.setDisabled id flag)

/-- Store `st1` is reached from `st` by a sequence of committed writes. -/
def Reach (st st1 : Store) : Prop := Relation.ReflTransGen Step st st1

/-! ## Sample data -/

/-- A stand-in for bcrypt with a readable digest. -/
def sampleBcrypt : Bcrypt :=
  { GenerateFromPassword := fun password _ _ => .ok ("bcrypt:" ++ password)
    CompareHashAndPassword := fun hashedPassword password =>
      hashedPassword == "bcrypt:" ++ password }

def alice : User :=
  { ID := 1, Email := "a@x.com", HashedPassword := "bcrypt:pw12345678", DisplayName := "A",
    CreatedAt := 0, UpdatedAt := 0, LastLogin := none, Disabled := false }

/-- A disabled account. -/
def bob : User :=
  { ID := 2, Email := "b@x.com", HashedPassword := "bcrypt:hunter2hunter2", DisplayName := "B",
    CreatedAt := 0, UpdatedAt := 0, LastLogin := none, Disabled := true }

/-- A session of `alice` expiring at instant 100. -/
def aliceSession : Session :=
  { ID := 10, UserID := 1, Token := "tok-a", ExpiresAt := 100, CreatedAt := 0 }

/-- A session of the disabled `bob` expiring at instant 100. -/
def bobSession : Session :=
  { ID := 11, UserID := 2, Token := "tok-b", ExpiresAt := 100, CreatedAt := 0 }

/-- A session whose owner has no user row. -/
def orphanSession : Session :=
  { ID := 12, UserID := 3, Token := "tok-c", ExpiresAt := 100, CreatedAt := 0 }

def sampleStore : Store :=
  { users := [alice, bob], sessions := [aliceSession, bobSession, orphanSession] }

/-- The sample store after the session of `alice` is revoked. -/
def revokedStore : Store :=
  { users := [alice, bob], sessions := [bobSession, orphanSession] }

/-- A request carrying the session cookie (with an empty value) and a bearer header. -/
def cookieRequest : Request :=
  { Method := "GET", Body := "", Header := [("Authorization", "Bearer tok-b")],
    Cookies := [{ Name := "session_token", Value := "", Path := "", MaxAge := 0,
                  HttpOnly := false, Secure := false, SameSite := .unset }],
    TLS := false, ctx := { values := [] } }

/-- A request carrying only a bearer header. -/
def bearerRequest : Request :=
  { Method := "GET", Body := "", Header := [("Authorization", "Bearer tok-a")],
    Cookies := [], TLS := false, ctx := { values := [] } }

/-- A request carrying a header of another scheme. -/
def basicRequest : Request :=
  { Method := "GET", Body := "", Header := [("Authorization", "Basic dXNlcg==")],
    Cookies := [], TLS := false, ctx := { values := [] } }

/-- A login of `alice` with her password, at instant 1000. -/
def aliceLoginRequest : LoginRequest :=
  { Email := "a@x.com", Password := "pw12345678" }

def aliceLoginEnv : auth.LoginEnv :=
  { faultSelect := none, faultInsert := none, faultUpdate := none,
    sessionID := 20, token := "tok-new",
    nowExpires := 1000, nowCreated := 1001, nowLastLogin := 1002 }

/-- The session that login creates: it expires 24 hours after instant 1000. -/
def newSession : Session :=
  { ID := 20, UserID := 1, Token := "tok-new", ExpiresAt := 86400000001000, CreatedAt := 1001 }

/-- The user that login returns. -/
def aliceLoggedIn : User :=
  { alice with LastLogin := some 1002 }

def storeAfterLogin : Store :=
  { users := [aliceLoggedIn, bob],
    sessions := [aliceSession, bobSession, orphanSession, newSession] }

/-- A stand-in for the JSON decoding of a login body. -/
def sampleDecodeLogin (body : String) : Option LoginRequest :=
  if body = "email=a@x.com&password=pw12345678" then
    some { Email := "a@x.com", Password := "pw12345678" }
  else if body = "email=a@x.com&password=not-her-password" then
    some { Email := "a@x.com", Password := "not-her-password" }
  else if body = "email=b@x.com&password=hunter2hunter2" then
    some { Email := "b@x.com", Password := "hunter2hunter2" }
  else none

/-- A login of `alice` with a wrong password. -/
def wrongPasswordLogin : Request :=
  { Method := "POST", Body := "email=a@x.com&password=not-her-password", Header := [],
    Cookies := [], TLS := false, ctx := { values := [] } }

/-- A login of the disabled `bob` with his password. -/
def disabledLogin : Request :=
  { Method := "POST", Body := "email=b@x.com&password=hunter2hunter2", Header := [],
    Cookies := [], TLS := false, ctx := { values := [] } }

/-- A stand-in for the JSON decoding of a signup body. -/
def sampleDecodeSignup (body : String) : Option SignupRequest :=
  if body = "email=c@x.com&password=pw12345678&display_name=C" then
    some { Email := "c@x.com", Password := "pw12345678", DisplayName := "C" }
  else none

/-- A signup with an email that no user of the sample store has. -/
def carolSignup : Request :=
  { Method := "POST", Body := "email=c@x.com&password=pw12345678&display_name=C", Header := [],
    Cookies := [], TLS := false, ctx := { values := [] } }

def carolSignupEnv : auth.CreateUserEnv :=
  { faultCount := none, faultInsert := none, salt := 7, newID := 3,
    nowCreated := 2000, nowUpdated := 2001 }

/-- The row that another signup with the same email commits first. -/
def carolByOtherRequest : User :=
  { ID := 4, Email := "c@x.com", HashedPassword := "bcrypt:other-password", DisplayName := "C2",
    CreatedAt := 1999, UpdatedAt := 1999, LastLogin := none, Disabled := false }

/-- The other signup commits its insert between the count and the insert. -/
def racingSignup (st : Store) : Store :=
  match st.insertUser none carolByOtherRequest with
  | .ok st1 => st1
  | .error _ => st

/-- A protected handler that answers with the user found in the context. -/
def whoami : Handler := fun st w r =>
  match middleware.GetUserFromContext r.ctx with
  | some user => (w.Write (.jsonUser user), st)
  | none => (httpError w "no user in context" StatusInternalServerError, st)

/-- A request with neither cookie nor header. -/
def anonymousRequest : Request :=
  { Method := "GET", Body := "", Header := [], Cookies := [], TLS := false,
    ctx := { values := [] } }

/-- A request with the token of the disabled `bob`. -/
def disabledTokenRequest : Request :=
  { Method := "GET", Body := "", Header := [("Authorization", "Bearer tok-b")],
    Cookies := [], TLS := false, ctx := { values := [] } }

/-- A request with a token that no session carries. -/
def unknownTokenRequest : Request :=
  { Method := "GET", Body := "", Header := [("Authorization", "Bearer tok-z")],
    Cookies := [], TLS := false, ctx := { values := [] } }

/-- The reaper scenario: at instant two hours, one session expired a minute ago
and one expires in an hour. -/
def reaperStore : Store :=
  { users := [alice],
    sessions :=
      [{ ID := 30, UserID := 1, Token := "tok-old", ExpiresAt := 7140000000000, CreatedAt := 0 },
       { ID := 31, UserID := 1, Token := "tok-live", ExpiresAt := 10800000000000,
         CreatedAt := 0 }] }

/-- A signup with the email of `alice`. -/
def takenSignupRequest : SignupRequest :=
  { Email := "a@x.com", Password := "another-password", DisplayName := "A again" }

/-- A signup with the email of `alice` in another case. -/
def upperCaseSignupRequest : SignupRequest :=
  { Email := "A@x.com", Password := "pw12345678", DisplayName := "Upper A" }

/-- The user that the upper-case signup creates. -/
def upperCaseUser : User :=
  { ID := 3, Email := "A@x.com", HashedPassword := "bcrypt:pw12345678",
    DisplayName := "Upper A", CreatedAt := 2000, UpdatedAt := 2001, LastLogin := none,
    Disabled := false }

/-! ## Lemmas on the statements -/

theorem Store.selectSessionUserID_noRows (st : Store) (token : String) (now : Time)
    (h : ∀ s ∈ st.sessions, s.Token = token → s.ExpiresAt ≤ now) :
    st.selectSessionUserID none token now = .error .ErrNoRows := by
  have hnone : st.sessions.find? (fun s => s.Token == token && decide (s.ExpiresAt > now))
      = none := by
    rw [List.find?_eq_none]
    intro s hs hp
    simp only [Bool.and_eq_true, beq_iff_eq, decide_eq_true_eq] at hp
    exact absurd hp.2 (Nat.not_lt.mpr (h s hs hp.1))
  simp only [Store.selectSessionUserID, hnone]

theorem Store.selectSessionUserID_found (st : Store) (s : Session) (now : Time)
    (huniq : (st.sessions.map (fun s => s.Token)).Nodup)
    (hs : s ∈ st.sessions) (hexp : now < s.ExpiresAt) :
    st.selectSessionUserID none s.Token now = .ok s.UserID := by
  cases hfind : st.sessions.find? (fun x => x.Token == s.Token && decide (x.ExpiresAt > now)) with
  | none =>
    rw [List.find?_eq_none] at hfind
    have := hfind s hs
    simp [hexp] at this
  | some x =>
    have hx : x ∈ st.sessions := List.mem_of_find?_eq_some hfind
    have hp := List.find?_some hfind
    simp only [Bool.and_eq_true, beq_iff_eq, decide_eq_true_eq] at hp
    have hxs : x = s := List.inj_on_of_nodup_map huniq hx hs hp.1
    simp only [Store.selectSessionUserID, hfind, hxs]

theorem Store.selectEnabledUserByID_noRows (st : Store) (id : UUID)
    (h : ∀ u ∈ st.users, u.ID = id → u.Disabled = true) :
    st.selectEnabledUserByID none id = .error .ErrNoRows := by
  have hnone : st.users.find? (fun u => u.ID == id && !u.Disabled) = none := by
    rw [List.find?_eq_none]
    intro u hu hp
    simp only [Bool.and_eq_true, beq_iff_eq, Bool.not_eq_true_eq_eq_false] at hp
    have := h u hu hp.1
    simp [hp.2] at this
  simp only [Store.selectEnabledUserByID, hnone]

theorem Store.selectEnabledUserByID_found (st : Store) (u : User)
    (huniq : (st.users.map (fun u => u.ID)).Nodup)
    (hu : u ∈ st.users) (hen : u.Disabled = false) :
    st.selectEnabledUserByID none u.ID = .ok { u with HashedPassword := "" } := by
  cases hfind : st.users.find? (fun x => x.ID == u.ID && !x.Disabled) with
  | none =>
    rw [List.find?_eq_none] at hfind
    have := hfind u hu
    simp [hen] at this
  | some x =>
    have hx : x ∈ st.users := List.mem_of_find?_eq_some hfind
    have hp := List.find?_some hfind
    simp only [Bool.and_eq_true, beq_iff_eq] at hp
    have hxu : x = u := List.inj_on_of_nodup_map huniq hx hu hp.1
    simp only [Store.selectEnabledUserByID, hfind, hxu]

/-- A session lookup that fails never yields a user, whatever the faults. -/
theorem auth.GetUserByToken_error_of_session_error (faultSession faultUser : Fault)
    (st : Store) (now : Time) (token : String) (err : Error)
    (h : st.selectSessionUserID faultSession token now = .error err) :
    ∃ e, auth.GetUserByToken faultSession faultUser st now token = .error e := by
  unfold auth.GetUserByToken
  rw [h]
  by_cases hrows : err = .ErrNoRows
  · exact ⟨.ErrInvalidToken, by simp only [hrows, if_true]⟩
  · exact ⟨.wrap "error fetching session" err, by simp only [hrows, if_false]⟩

theorem Store.deleteSessionsByToken_absent (st : Store) (token : String)
    (h : ∀ s ∈ st.sessions, s.Token ≠ token) :
    st.deleteSessionsByToken token = (st, 0) := by
  have hkeep : st.sessions.filter (fun s => !(s.Token == token)) = st.sessions := by
    rw [List.filter_eq_self]
    intro s hs
    simp [h s hs]
  have hnone : st.sessions.filter (fun s => s.Token == token) = [] := by
    rw [List.filter_eq_nil_iff]
    intro s hs
    simp [h s hs]
  simp only [Store.deleteSessionsByToken, hkeep, hnone, List.length_nil]

theorem Store.deleteSessionsByToken_gone (st : Store) (token : String) :
    ∀ s ∈ (st.deleteSessionsByToken token).1.sessions, s.Token ≠ token := by
  intro s hs
  simp only [Store.deleteSessionsByToken, List.mem_filter] at hs
  simpa using hs.2

/-- With no session row for the token, `Logout` reports `ErrInvalidToken` and
leaves the store as it was. -/
theorem auth.Logout_absent (st : Store) (token : String)
    (h : ∀ s ∈ st.sessions, s.Token ≠ token) :
    auth.Logout none none st token = (some .ErrInvalidToken, st) := by
  simp only [auth.Logout, Store.deleteSessionsByToken_absent st token h, if_true]

/-- A nil error from `Logout` means that the delete was executed and removed a row. -/
theorem auth.Logout_ok_store (faultExec faultRows : Fault) (st st1 : Store) (token : String)
    (h : auth.Logout faultExec faultRows st token = (none, st1)) :
    st1 = (st.deleteSessionsByToken token).1 := by
  unfold auth.Logout at h
  cases faultExec with
  | some e => simp at h
  | none =>
    cases faultRows with
    | some e => simp at h
    | none =>
      by_cases hz : (st.deleteSessionsByToken token).2 = 0
      · simp [hz] at h
      · simp only [hz, if_false, Prod.mk.injEq, true_and] at h
        exact h.symm

/-- The session query sees the same row before and after the reaper's delete. -/
theorem Store.selectSessionUserID_deleteExpired (st : Store) (fault : Fault) (token : String)
    (now : Time) :
    (st.deleteExpiredSessions now).1.selectSessionUserID fault token now
      = st.selectSessionUserID fault token now := by
  cases fault with
  | some e => rfl
  | none =>
    have hpred : (fun s : Session =>
          decide ((!decide (s.ExpiresAt < now)) = true ∧
            (s.Token == token && decide (s.ExpiresAt > now)) = true))
        = (fun s : Session => s.Token == token && decide (s.ExpiresAt > now)) := by
      funext s
      by_cases hlt : s.ExpiresAt < now
      · have hgt : ¬ s.ExpiresAt > now := Nat.lt_asymm hlt
        simp [hlt, hgt]
      · simp [hlt]
        rfl
    simp only [Store.selectSessionUserID, Store.deleteExpiredSessions, List.find?_filter, hpred]

theorem strings.HasPrefix_iff (s pre : String) :
    strings.HasPrefix s pre = true ↔ ∃ rest : String, s = pre ++ rest := by
  unfold strings.HasPrefix
  rw [ List.isPrefixOf_iff_prefix]
  constructor
  · rintro ⟨t, ht⟩
    refine ⟨String.mk t, ?_⟩
    apply String.ext
    rw [String.data_append, ht]
  · rintro ⟨rest, hrest⟩
    exact ⟨rest.data, by rw [hrest, String.data_append]⟩

theorem strings.TrimPrefix_append (pre rest : String) :
    strings.TrimPrefix (pre ++ rest) pre = rest := by
  have hpre : strings.HasPrefix (pre ++ rest) pre = true :=
    (strings.HasPrefix_iff _ _).mpr ⟨rest, rfl⟩
  unfold strings.TrimPrefix
  rw [if_pos hpre]
  apply String.ext
  simp [String.data_append]

/-! ## Invariants of the store under committed writes -/

theorem Store.insertUser_ok (st st1 : Store) (u : User) (h : st.insertUser none u = .ok st1) :
    st1 = { st with users := st.users ++ [u] } ∧
    (∀ x ∈ st.users, x.ID ≠ u.ID) ∧ (∀ x ∈ st.users, x.Email ≠ u.Email) := by
  unfold Store.insertUser at h
  by_cases hid : st.users.any (fun x => x.ID == u.ID) = true
  · simp [hid] at h
  · by_cases hemail : st.users.any (fun x => x.Email == u.Email) = true
    · simp [hid, hemail] at h
    · have hid1 : st.users.any (fun x => x.ID == u.ID) = false := by simpa using hid
      have hemail1 : st.users.any (fun x => x.Email == u.Email) = false := by simpa using hemail
      simp only [hid1, hemail1, Bool.false_eq_true, if_false, Except.ok.injEq] at h
      refine ⟨h.symm, ?_, ?_⟩
      · intro x hx hxu
        exact hid (List.any_eq_true.mpr ⟨x, hx, by simp [hxu]⟩)
      · intro x hx hxu
        exact hemail (List.any_eq_true.mpr ⟨x, hx, by simp [hxu]⟩)

theorem Store.insertSession_ok (st st1 : Store) (s : Session)
    (h : st.insertSession none s = .ok st1) :
    st1 = { st with sessions := st.sessions ++ [s] } ∧
    (∀ x ∈ st.sessions, x.ID ≠ s.ID) ∧ (∀ x ∈ st.sessions, x.Token ≠ s.Token) := by
  unfold Store.insertSession at h
  by_cases hid : st.sessions.any (fun x => x.ID == s.ID) = true
  · simp [hid] at h
  · by_cases htoken : st.sessions.any (fun x => x.Token == s.Token) = true
    · simp [hid, htoken] at h
    · have hid1 : st.sessions.any (fun x => x.ID == s.ID) = false := by simpa using hid
      have htoken1 : st.sessions.any (fun x => x.Token == s.Token) = false := by
        simpa using htoken
      simp only [hid1, htoken1, Bool.false_eq_true, if_false, Except.ok.injEq] at h
      refine ⟨h.symm, ?_, ?_⟩
      · intro x hx hxs
        exact hid (List.any_eq_true.mpr ⟨x, hx, by simp [hxs]⟩)
      · intro x hx hxs
        exact htoken (List.any_eq_true.mpr ⟨x, hx, by simp [hxs]⟩)

/-- Appending a row with a fresh key keeps the keys distinct. -/
theorem nodup_map_append_fresh {α β : Type} (f : α → β) (l : List α) (a : α)
    (hl : (l.map f).Nodup) (hfresh : ∀ x ∈ l, f x ≠ f a) : ((l ++ [a]).map f).Nodup := by
  rw [List.map_append, List.nodup_append]
  refine ⟨hl, by simp, ?_⟩
  intro b hb hb1
  simp only [List.map_cons, List.map_nil, List.mem_singleton] at hb1
  obtain ⟨x, hx, hxb⟩ := List.mem_map.mp hb
  exact hfresh x hx (hxb.trans hb1)

/-- Deleting rows keeps the keys distinct. -/
theorem nodup_map_filter {α β : Type} (f : α → β) (p : α → Bool) (l : List α)
    (hl : (l.map f).Nodup) : ((l.filter p).map f).Nodup :=
  List.Nodup.sublist ((List.filter_sublist l).map f) hl

theorem Store.setLastLogin_ids (st : Store) (now : Time) (id : UUID) :
    (st.setLastLogin now id).users.map (fun u => (u.ID, u.Email))
      = st.users.map (fun u => (u.ID, u.Email)) := by
  simp only [Store.setLastLogin, List.map_map]
  apply List.map_congr_left
  intro u _
  by_cases h : u.ID = id <;> simp [h]

theorem Store.setDisabled_ids (st : Store) (id : UUID) (flag : Bool) :
    (st.setDisabled id flag).users.map (fun u => (u.ID, u.Email))
      = st.users.map (fun u => (u.ID, u.Email)) := by
  simp only [Store.setDisabled, List.map_map]
  apply List.map_congr_left
  intro u _
  by_cases h : u.ID = id <;> simp [h]

/-- Stores with the same (id, email) pairs and the same sessions are well formed together. -/
theorem Store.WF_of_same_ids (st st1 : Store) (hwf : st.WF)
    (hsess : st1.sessions = st.sessions)
    (hids : st1.users.map (fun u => (u.ID, u.Email)) = st.users.map (fun u => (u.ID, u.Email))) :
    st1.WF := by
  have hfst : st1.users.map (fun u => u.ID) = st.users.map (fun u => u.ID) := by
    have := congrArg (List.map Prod.fst) hids
    simpa [List.map_map, Function.comp_def] using this
  have hsnd : st1.users.map (fun u => u.Email) = st.users.map (fun u => u.Email) := by
    have := congrArg (List.map Prod.snd) hids
    simpa [List.map_map, Function.comp_def] using this
  unfold Store.WF
  rw [hfst, hsnd, hsess]
  exact hwf

/-- Every committed write keeps the schema constraints. -/
theorem Step.preserves_WF {st st1 : Store} (hstep : Step st st1) (hwf : st.WF) : st1.WF := by
  cases hstep with
  | insertUser u h =>
    obtain ⟨hst1, hid, hemail⟩ := Store.insertUser_ok st st1 u h
    subst hst1
    exact ⟨nodup_map_append_fresh _ _ _ hwf.1 hid, nodup_map_append_fresh _ _ _ hwf.2.1 hemail,
      hwf.2.2.1, hwf.2.2.2⟩
  | insertSession s h =>
    obtain ⟨hst1, hid, htoken⟩ := Store.insertSession_ok st st1 s h
    subst hst1
    exact ⟨hwf.1, hwf.2.1, nodup_map_append_fresh _ _ _ hwf.2.2.1 hid,
      nodup_map_append_fresh _ _ _ hwf.2.2.2 htoken⟩
  | setLastLogin now id =>
    exact Store.WF_of_same_ids st _ hwf rfl (Store.setLastLogin_ids st now id)
  | deleteSessionsByToken token =>
    exact ⟨hwf.1, hwf.2.1, nodup_map_filter _ _ _ hwf.2.2.1, nodup_map_filter _ _ _ hwf.2.2.2⟩
  | deleteExpiredSessions now =>
    exact ⟨hwf.1, hwf.2.1, nodup_map_filter _ _ _ hwf.2.2.1, nodup_map_filter _ _ _ hwf.2.2.2⟩
  | setDisabled id flag =>
    exact Store.WF_of_same_ids st _ hwf rfl (Store.setDisabled_ids st id flag)

/-- No committed write removes a user row or changes its identifier or email. -/
theorem Step.preserves_users {st st1 : Store} (hstep : Step st st1) (id : UUID) (email : String)
    (h : ∃ u ∈ st.users, u.ID = id ∧ u.Email = email) :
    ∃ u ∈ st1.users, u.ID = id ∧ u.Email = email := by
  have hpairs : ∀ s2 : Store,
      s2.users.map (fun u => (u.ID, u.Email)) = st.users.map (fun u => (u.ID, u.Email)) →
      ∃ u ∈ s2.users, u.ID = id ∧ u.Email = email := by
    intro s2 hs2
    obtain ⟨u, hu, hid, hemail⟩ := h
    have hmem : (id, email) ∈ s2.users.map (fun u => (u.ID, u.Email)) := by
      rw [hs2]
      exact List.mem_map.mpr ⟨u, hu, by rw [hid, hemail]⟩
    obtain ⟨v, hv, hveq⟩ := List.mem_map.mp hmem
    simp only [Prod.mk.injEq] at hveq
    exact ⟨v, hv, hveq.1, hveq.2⟩
  cases hstep with
  | insertUser u0 h0 =>
    obtain ⟨hst1, _, _⟩ := Store.insertUser_ok st st1 u0 h0
    subst hst1
    obtain ⟨u, hu, hid, hemail⟩ := h
    exact ⟨u, List.mem_append_left _ hu, hid, hemail⟩
  | insertSession s h0 =>
    obtain ⟨hst1, _, _⟩ := Store.insertSession_ok st st1 s h0
    subst hst1
    exact h
  | setLastLogin now id0 => exact hpairs _ (Store.setLastLogin_ids st now id0)
  | deleteSessionsByToken token => exact h
  | deleteExpiredSessions now => exact h
  | setDisabled id0 flag => exact hpairs _ (Store.setDisabled_ids st id0 flag)

theorem Reach.keeps_WF {st st1 : Store} (hreach : Reach st st1) (hwf : st.WF) : st1.WF := by
  induction hreach with
  | refl => exact hwf
  | tail _ hstep ih => exact hstep.preserves_WF ih

theorem Reach.keeps_users {st st1 : Store} (hreach : Reach st st1) (id : UUID)
    (email : String) (h : ∃ u ∈ st.users, u.ID = id ∧ u.Email = email) :
    ∃ u ∈ st1.users, u.ID = id ∧ u.Email = email := by
  induction hreach with
  | refl => exact h
  | tail _ hstep ih => exact hstep.preserves_users id email ih

theorem Store.selectUserByEmail_ok (st : Store) (fault : Fault) (email : String) (u : User)
    (h : st.selectUserByEmail fault email = .ok u) : u ∈ st.users ∧ u.Email = email := by
  unfold Store.selectUserByEmail at h
  cases fault with
  | some e => simp at h
  | none =>
    cases hfind : st.users.find? (fun u => u.Email == email) with
    | none => simp [hfind] at h
    | some x =>
      simp only [hfind, Except.ok.injEq] at h
      subst h
      exact ⟨List.mem_of_find?_eq_some hfind, by simpa using List.find?_some hfind⟩

theorem Store.insertSession_ok_none (st st1 : Store) (fault : Fault) (s : Session)
    (h : st.insertSession fault s = .ok st1) : st.insertSession none s = .ok st1 := by
  cases fault with
  | some e => simp [Store.insertSession] at h
  | none => exact h

theorem Store.updateLastLogin_ok (st st1 : Store) (fault : Fault) (now : Time) (id : UUID)
    (h : st.updateLastLogin fault now id = .ok st1) : st1 = st.setLastLogin now id := by
  cases fault with
  | some e => simp [Store.updateLastLogin] at h
  | none =>
    simp only [Store.updateLastLogin, Except.ok.injEq] at h
    exact h.symm

/-- What a successful `Login` found and wrote. -/
theorem auth.Login_ok (bc : Bcrypt) (env : auth.LoginEnv) (st st1 : Store) (req : LoginRequest)
    (user : User) (session : Session)
    (h : auth.Login bc env st req = (.ok (user, session), st1)) :
    ∃ u0 stMid, u0 ∈ st.users ∧ u0.Email = req.Email ∧ u0.Disabled = false ∧
      bc.CompareHashAndPassword u0.HashedPassword req.Password = true ∧
      user = { u0 with LastLogin := some env.nowLastLogin } ∧
      session = { ID := env.sessionID, UserID := u0.ID, Token := env.token,
                  ExpiresAt := env.nowExpires + 24 * Hour, CreatedAt := env.nowCreated } ∧
      st.insertSession none session = .ok stMid ∧
      st1 = stMid.setLastLogin env.nowLastLogin u0.ID := by
  unfold auth.Login at h
  cases hsel : st.selectUserByEmail env.faultSelect req.Email with
  | error err =>
    rw [hsel] at h
    by_cases hrows : err = .ErrNoRows <;> simp [hrows] at h
  | ok u0 =>
    rw [hsel] at h
    obtain ⟨hmem, hemail⟩ := Store.selectUserByEmail_ok st _ _ u0 hsel
    cases hdis : u0.Disabled with
    | true => simp [hdis] at h
    | false =>
      cases hpw : bc.CompareHashAndPassword u0.HashedPassword req.Password with
      | false => simp [hdis, hpw] at h
      | true =>
        simp only [hdis, hpw, Bool.false_eq_true, if_false, Bool.not_true] at h
        cases hins : st.insertSession env.faultInsert
            { ID := env.sessionID, UserID := u0.ID, Token := env.token,
              ExpiresAt := env.nowExpires + 24 * Hour, CreatedAt := env.nowCreated } with
        | error err => simp [hins] at h
        | ok stMid =>
          simp only [hins] at h
          cases hupd : stMid.updateLastLogin env.faultUpdate env.nowLastLogin u0.ID with
          | error err => simp [hupd] at h
          | ok st2 =>
            simp only [hupd, Prod.mk.injEq, Except.ok.injEq] at h
            obtain ⟨⟨huser, hsession⟩, hst⟩ := h
            refine ⟨u0, stMid, hmem, hemail, hdis, hpw, by rw [hdis]; exact huser.symm,
              hsession.symm, ?_, ?_⟩
            · rw [← hsession]
              exact Store.insertSession_ok_none st stMid _ _ hins
            · rw [← hst]
              exact Store.updateLastLogin_ok stMid st2 _ _ _ hupd

/-- For an enabled user whose stored hash verifies, with a fresh session
identifier and token and no fault, `Login` succeeds. -/
theorem auth.Login_succeeds (bc : Bcrypt) (env : auth.LoginEnv) (st : Store) (req : LoginRequest)
    (u0 : User) (hwf : st.WF) (hu0 : u0 ∈ st.users) (hemail : u0.Email = req.Email)
    (hen : u0.Disabled = false)
    (hpw : bc.CompareHashAndPassword u0.HashedPassword req.Password = true)
    (hfaults : env.faultSelect = none ∧ env.faultInsert = none ∧ env.faultUpdate = none)
    (hid : ∀ x ∈ st.sessions, x.ID ≠ env.sessionID)
    (htoken : ∀ x ∈ st.sessions, x.Token ≠ env.token) :
    ∃ session st1, auth.Login bc env st req
      = (.ok ({ u0 with LastLogin := some env.nowLastLogin }, session), st1) ∧
      session.Token = env.token ∧ session.UserID = u0.ID ∧
      session.ExpiresAt = env.nowExpires + 24 * Hour ∧ session ∈ st1.sessions := by
  have hsel : st.selectUserByEmail none req.Email = .ok u0 := by
    cases hfind : st.users.find? (fun u => u.Email == req.Email) with
    | none =>
      rw [List.find?_eq_none] at hfind
      exact absurd (by simpa using hemail) (hfind u0 hu0)
    | some x =>
      have hx := List.mem_of_find?_eq_some hfind
      have hp : x.Email = req.Email := by simpa using List.find?_some hfind
      have hxu : x = u0 := List.inj_on_of_nodup_map hwf.2.1 hx hu0 (hp.trans hemail.symm)
      simp only [Store.selectUserByEmail, hfind, hxu]
  have hid1 : st.sessions.any (fun x => x.ID == env.sessionID) = false := by
    rw [Bool.eq_false_iff]
    intro hany
    obtain ⟨x, hx, hxe⟩ := List.any_eq_true.mp hany
    exact hid x hx (by simpa using hxe)
  have htoken1 : st.sessions.any (fun x => x.Token == env.token) = false := by
    rw [Bool.eq_false_iff]
    intro hany
    obtain ⟨x, hx, hxe⟩ := List.any_eq_true.mp hany
    exact htoken x hx (by simpa using hxe)
  refine ⟨{ ID := env.sessionID, UserID := u0.ID, Token := env.token,
            ExpiresAt := env.nowExpires + 24 * Hour, CreatedAt := env.nowCreated },
          Store.setLastLogin
            { st with sessions := st.sessions ++
                [{ ID := env.sessionID, UserID := u0.ID, Token := env.token,
                   ExpiresAt := env.nowExpires + 24 * Hour, CreatedAt := env.nowCreated }] }
            env.nowLastLogin u0.ID, ?_, rfl, rfl, rfl, ?_⟩
  · simp only [auth.Login, hfaults.1, hfaults.2.1, hfaults.2.2, hsel, hen, hpw,
      Store.insertSession, Store.updateLastLogin, hid1, htoken1, Bool.false_eq_true, if_false,
      Bool.not_true]
  · simp [Store.setLastLogin]

/-- The first row found by email is the row itself when emails are unique. -/
theorem Store.selectUserByEmail_found (st : Store) (u : User) (hwf : st.WF) (hu : u ∈ st.users) :
    st.selectUserByEmail none u.Email = .ok u := by
  cases hfind : st.users.find? (fun x => x.Email == u.Email) with
  | none =>
    rw [List.find?_eq_none] at hfind
    exact absurd (by simp) (hfind u hu)
  | some x =>
    have hx := List.mem_of_find?_eq_some hfind
    have hp : x.Email = u.Email := by simpa using List.find?_some hfind
    have hxu : x = u := List.inj_on_of_nodup_map hwf.2.1 hx hu hp
    simp only [Store.selectUserByEmail, hfind, hxu]

/-- A disabled account, with any password: `Login` returns the call-site error
"account is disabled", creates nothing, and the login handler answers 500. -/
theorem handlers.handleLogin_disabled (bc : Bcrypt) (decode : String → Option LoginRequest)
    (env : auth.LoginEnv) (st : Store) (req : LoginRequest) (u : User)
    (w : ResponseWriter) (r : Request)
    (hwf : st.WF) (hfault : env.faultSelect = none)
    (hu : u ∈ st.users) (hemail : u.Email = req.Email) (hdis : u.Disabled = true)
    (hmethod : r.Method = "POST") (hbody : decode r.Body = some req) :
    auth.Login bc env st req = (.error (.new "account is disabled"), st) ∧
    handlers.handleLogin bc decode env st w r
      = (httpError w "Internal server error" StatusInternalServerError, st) := by
  have hsel := Store.selectUserByEmail_found st u hwf hu
  rw [hemail] at hsel
  have hlogin : auth.Login bc env st req = (.error (.new "account is disabled"), st) := by
    simp only [auth.Login, hfault, hsel, hdis, if_true]
  refine ⟨hlogin, ?_⟩
  simp [handlers.handleLogin, hmethod, hbody, hlogin, errors.Is]

/-- An insert that the store rejects fails with a driver error. -/
theorem Store.insertUser_error (st : Store) (fault : Fault) (u : User) (err : Error)
    (h : st.insertUser fault u = .error err) : ∃ e, err = .driver e := by
  unfold Store.insertUser at h
  cases fault with
  | some e =>
    simp only [Except.error.injEq] at h
    exact ⟨e, h.symm⟩
  | none =>
    by_cases hid : st.users.any (fun x => x.ID == u.ID) = true
    · simp only [hid, if_true, Except.error.injEq] at h
      exact ⟨_, h.symm⟩
    · by_cases hmail : st.users.any (fun x => x.Email == u.Email) = true
      · have hid1 : st.users.any (fun x => x.ID == u.ID) = false := by simpa using hid
        simp only [hid1, hmail, Bool.false_eq_true, if_true, if_false, Except.error.injEq] at h
        exact ⟨_, h.symm⟩
      · simp [hid, hmail] at h

/-- When the count finds no user and the insert is rejected, `CreateUser`
returns the wrapped driver error, which is not `ErrEmailTaken`, and the signup
handler answers 500. -/
theorem handlers.handleSignup_insert_rejected (bc : Bcrypt)
    (decode : String → Option SignupRequest) (env : auth.CreateUserEnv)
    (concurrent : Store → Store) (st : Store) (req : SignupRequest) (hashed : String)
    (err : Error) (w : ResponseWriter) (r : Request)
    (hfault : env.faultCount = none)
    (hcount : ∀ u ∈ st.users, u.Email ≠ req.Email)
    (hhash : bc.GenerateFromPassword req.Password Bcrypt.DefaultCost env.salt = .ok hashed)
    (hins : (concurrent st).insertUser env.faultInsert
      { ID := env.newID, Email := req.Email, HashedPassword := hashed,
        DisplayName := req.DisplayName, CreatedAt := env.nowCreated,
        UpdatedAt := env.nowUpdated, LastLogin := none, Disabled := false } = .error err)
    (hmethod : r.Method = "POST") (hbody : decode r.Body = some req) :
    auth.CreateUserWith bc env concurrent st req
      = (.error (.wrap "error creating user" err), concurrent st) ∧
    errors.Is (.wrap "error creating user" err) .ErrEmailTaken = false ∧
    handlers.handleSignup bc decode env concurrent st w r
      = (httpError w "Internal server error" StatusInternalServerError, concurrent st) := by
  have hzero : st.users.filter (fun u => u.Email == req.Email) = [] := by
    rw [List.filter_eq_nil_iff]
    intro u hu
    simp [hcount u hu]
  have hcreate : auth.CreateUserWith bc env concurrent st req
      = (.error (.wrap "error creating user" err), concurrent st) := by
    simp only [auth.CreateUserWith, Store.countUsersByEmail, hfault, hzero, List.length_nil,
      Nat.lt_irrefl, gt_iff_lt, if_false, hhash, hins]
  obtain ⟨e, he⟩ := Store.insertUser_error _ _ _ _ hins
  have his : errors.Is (.wrap "error creating user" err) .ErrEmailTaken = false := by
    subst he
    simp [errors.Is]
  refine ⟨hcreate, his, ?_⟩
  simp [handlers.handleSignup, hmethod, hbody, hcreate, his]

/-- On a writer whose status line is not yet written, `http.Error` writes its code. -/
theorem httpError_status (w : ResponseWriter) (msg : String) (code : Nat)
    (hw : w.Status = none) : (httpError w msg code).Status = some code := by
  simp [httpError, ResponseWriter.Write, ResponseWriter.WriteHeader, ResponseWriter.HeaderSet, hw]

theorem Store.insertUser_ok_none (st st1 : Store) (fault : Fault) (u : User)
    (h : st.insertUser fault u = .ok st1) : st.insertUser none u = .ok st1 := by
  cases fault with
  | some e => simp [Store.insertUser] at h
  | none => exact h

/-- The store that `CreateUser` leaves behind is the store it found, or that
store after the insert of one user. -/
theorem auth.CreateUser_store (bc : Bcrypt) (env : auth.CreateUserEnv) (st : Store)
    (req : SignupRequest) :
    (auth.CreateUser bc env st req).2 = st ∨
    ∃ user, st.insertUser none user = .ok (auth.CreateUser bc env st req).2 := by
  unfold auth.CreateUser auth.CreateUserWith
  cases hcount : st.countUsersByEmail env.faultCount req.Email with
  | error err => exact Or.inl rfl
  | ok count =>
    by_cases hpos : count > 0
    · simp only [hpos, if_true]
      exact Or.inl trivial
    · simp only [hpos, if_false]
      cases hhash : bc.GenerateFromPassword req.Password Bcrypt.DefaultCost env.salt with
      | error err => exact Or.inl rfl
      | ok hashed =>
        cases hins : (id st).insertUser env.faultInsert
            { ID := env.newID, Email := req.Email, HashedPassword := hashed,
              DisplayName := req.DisplayName, CreatedAt := env.nowCreated,
              UpdatedAt := env.nowUpdated, LastLogin := none, Disabled := false } with
        | error err =>
          simp only [hins]
          exact Or.inl rfl
        | ok st1 =>
          simp only [hins]
          exact Or.inr ⟨_, Store.insertUser_ok_none st st1 _ _ hins⟩

/-! ## Claims -/

/-- C1. Round trip: if `Login` succeeds at `t0` on a well-formed store and
returns a session (with its token) and a user, then `Login` has written that
session row, and in every store reached from there by committed writes, at every
instant `t < t0 + 24h`, provided the row that `Login` wrote has not been deleted
and the user is not disabled, `GetUserByToken` on the returned token succeeds and
returns a user with the same ID and email. -/
theorem login_then_getUserByToken_roundtrip (bc : Bcrypt) (env : auth.LoginEnv)
    (st st1 st2 : Store) (req : LoginRequest) (user : User) (session : Session) (t0 t : Time)
    (hwf : st.WF)
    (hlogin : auth.Login bc env st req = (.ok (user, session), st1))
    (hclock : t0 ≤ env.nowExpires)
    (hreach : Reach st1 st2)
    (ht : t < t0 + 24 * Hour)
    (hkept : session ∈ st1.sessions → session ∈ st2.sessions)
    (henabled : ∀ u ∈ st2.users, u.ID = user.ID → u.Disabled = false) :
    session ∈ st1.sessions ∧
    ∃ u, auth.GetUserByToken none none st2 t session.Token = .ok u ∧
      u.ID = user.ID ∧ u.Email = user.Email := by
  obtain ⟨u0, stMid, hu0, _, _, _, huser, hsess, hins, hst1⟩ :=
    auth.Login_ok bc env st st1 req user session hlogin
  have hwritten : session ∈ st1.sessions := by
    obtain ⟨hmid, _, _⟩ := Store.insertSession_ok st stMid session hins
    rw [hst1, hmid]
    simp [Store.setLastLogin]
  have hsession : session ∈ st2.sessions := hkept hwritten
  refine ⟨hwritten, ?_⟩
  have hreach1 : Reach st st1 := by
    rw [hst1]
    exact Relation.ReflTransGen.tail
      (Relation.ReflTransGen.single (Step.insertSession session hins))
      (Step.setLastLogin env.nowLastLogin u0.ID)
  have hreach2 : Reach st st2 := Relation.ReflTransGen.trans hreach1 hreach
  have hwf2 : st2.WF := hreach2.keeps_WF hwf
  obtain ⟨u2, hu2, hid2, hemail2⟩ :=
    hreach2.keeps_users u0.ID u0.Email ⟨u0, hu0, rfl, rfl⟩
  have huid : user.ID = u0.ID := by rw [huser]
  have huemail : user.Email = u0.Email := by rw [huser]
  have hexp : t < session.ExpiresAt := by
    have hat : session.ExpiresAt = env.nowExpires + 24 * Hour := by rw [hsess]
    rw [hat]
    exact Nat.lt_of_lt_of_le ht (Nat.add_le_add_right hclock _)
  have hsel := Store.selectSessionUserID_found st2 session t hwf2.2.2.2 hsession hexp
  have hown : session.UserID = u2.ID := by rw [hsess, hid2]
  have husr := Store.selectEnabledUserByID_found st2 u2 hwf2.1 hu2
    (henabled u2 hu2 (hid2.trans huid.symm))
  refine ⟨{ u2 with HashedPassword := "" }, ?_, hid2.trans huid.symm, hemail2.trans huemail.symm⟩
  rw [hown] at hsel
  simp only [auth.GetUserByToken, hsel, husr]

/-- An instance of C1: `alice` logs in at instant 1000, a reaper tick at instant
500 runs afterwards, and her token resolves 23 hours after the login. -/
theorem login_then_getUserByToken_roundtrip_witness :
    auth.Login sampleBcrypt aliceLoginEnv sampleStore aliceLoginRequest
      = (.ok (aliceLoggedIn, newSession), storeAfterLogin) ∧
    newSession ∈ storeAfterLogin.sessions ∧
    ∃ u, auth.GetUserByToken none none (storeAfterLogin.deleteExpiredSessions 500).1
        (1000 + 23 * Hour) "tok-new" = .ok u ∧ u.ID = 1 ∧ u.Email = "a@x.com" :=
  ⟨by rfl,
   login_then_getUserByToken_roundtrip sampleBcrypt aliceLoginEnv sampleStore storeAfterLogin
    (storeAfterLogin.deleteExpiredSessions 500).1 aliceLoginRequest aliceLoggedIn newSession
    1000 (1000 + 23 * Hour) (by decide) (by rfl) (by decide)
    (Relation.ReflTransGen.single (Step.deleteExpiredSessions 500))
    (by decide) (fun _ => by decide) (by decide)⟩

/-- C2. Expiry boundary: when every session row carrying the token has
`expires_at <= now` (which includes a row expiring exactly at `now`, and the
case of no row at all), `GetUserByToken` evaluated at `now` returns
`ErrInvalidToken`. -/
theorem getUserByToken_expired_or_absent_invalid (faultUser : Fault) (st : Store) (now : Time)
    (token : String)
    (h : ∀ s ∈ st.sessions, s.Token = token → s.ExpiresAt ≤ now) :
    auth.GetUserByToken none faultUser st now token = .error .ErrInvalidToken := by
  unfold auth.GetUserByToken
  rw [Store.selectSessionUserID_noRows st token now h]
  simp

/-- The boundary case of C2: the session of `alice` expires exactly at instant 100. -/
theorem getUserByToken_expired_or_absent_invalid_witness :
    (∀ s ∈ sampleStore.sessions, s.Token = "tok-a" → s.ExpiresAt ≤ 100) ∧
    auth.GetUserByToken none none sampleStore 100 "tok-a" = .error .ErrInvalidToken :=
  ⟨by decide, getUserByToken_expired_or_absent_invalid none sampleStore 100 "tok-a" (by decide)⟩

/-- C3. Disabled-account exclusion at token resolution: when the token belongs
to an unexpired session whose owning user row is disabled or missing,
`GetUserByToken` fails with `ErrUserNotFound`, and under no fault of the store
does it return a user. -/
theorem getUserByToken_disabled_or_missing_owner (st : Store) (now : Time) (token : String)
    (s : Session) (hwf : st.WF)
    (hs : s ∈ st.sessions) (htoken : s.Token = token) (hexp : now < s.ExpiresAt)
    (howner : ∀ u ∈ st.users, u.ID = s.UserID → u.Disabled = true) :
    auth.GetUserByToken none none st now token = .error .ErrUserNotFound ∧
    ∀ (faultSession faultUser : Fault) (u : User),
      auth.GetUserByToken faultSession faultUser st now token ≠ .ok u := by
  subst htoken
  have hsel := Store.selectSessionUserID_found st s now hwf.2.2.2 hs hexp
  have husr := Store.selectEnabledUserByID_noRows st s.UserID howner
  refine ⟨?_, ?_⟩
  · unfold auth.GetUserByToken
    rw [hsel]
    simp only [husr, if_true]
  · intro faultSession faultUser u
    unfold auth.GetUserByToken
    cases faultSession with
    | some e => simp [Store.selectSessionUserID]
    | none =>
      rw [hsel]
      cases faultUser with
      | some e => simp [Store.selectEnabledUserByID]
      | none => simp [husr]

/-- Instances of C3: the unexpired token of the disabled `bob`. -/
theorem getUserByToken_disabled_or_missing_owner_witness :
    auth.GetUserByToken none none sampleStore 99 "tok-b" = .error .ErrUserNotFound ∧
    ∀ (faultSession faultUser : Fault) (u : User),
      auth.GetUserByToken faultSession faultUser sampleStore 99 "tok-b" ≠ .ok u :=
  getUserByToken_disabled_or_missing_owner sampleStore 99 "tok-b" bobSession
    (by decide) (by decide) rfl (by decide) (by decide)

/-- C4, evaluated on the sample store: a login of the disabled `bob` with his
password creates nothing, but the handler answers 500 "Internal server error",
not the 401 "Invalid credentials" that a wrong password gets. -/
theorem handleLogin_disabled_account_responds_500 :
    auth.Login sampleBcrypt aliceLoginEnv sampleStore
        { Email := "b@x.com", Password := "hunter2hunter2" }
      = (.error (.new "account is disabled"), sampleStore) ∧
    handlers.handleLogin sampleBcrypt sampleDecodeLogin aliceLoginEnv sampleStore
        ResponseWriter.fresh disabledLogin
      = (httpError ResponseWriter.fresh "Internal server error" StatusInternalServerError,
         sampleStore) ∧
    (handlers.handleLogin sampleBcrypt sampleDecodeLogin aliceLoginEnv sampleStore
        ResponseWriter.fresh disabledLogin).1.Status = some 500 ∧
    (handlers.handleLogin sampleBcrypt sampleDecodeLogin aliceLoginEnv sampleStore
        ResponseWriter.fresh wrongPasswordLogin).1.Status = some 401 := by
  refine ⟨by rfl, by rfl, by rfl, by rfl⟩

/-- C5, evaluated on the sample store: the count finds no user with the email,
another signup commits the same email before the insert, the insert is rejected
by the uniqueness constraint, and `CreateUser` returns an error that is not
`ErrEmailTaken`; the signup handler answers 500, not 409. -/
theorem createUser_insert_conflict_responds_500 :
    sampleStore.countUsersByEmail none "c@x.com" = .ok 0 ∧
    carolByOtherRequest ∈ (racingSignup sampleStore).users ∧
    auth.CreateUserWith sampleBcrypt carolSignupEnv racingSignup sampleStore
        { Email := "c@x.com", Password := "pw12345678", DisplayName := "C" }
      = (.error (.wrap "error creating user" (.driver (.uniqueViolation "users_email_key"))),
         racingSignup sampleStore) ∧
    errors.Is (.wrap "error creating user" (.driver (.uniqueViolation "users_email_key")))
      .ErrEmailTaken = false ∧
    handlers.handleSignup sampleBcrypt sampleDecodeSignup carolSignupEnv racingSignup sampleStore
        ResponseWriter.fresh carolSignup
      = (httpError ResponseWriter.fresh "Internal server error" StatusInternalServerError,
         racingSignup sampleStore) ∧
    (handlers.handleSignup sampleBcrypt sampleDecodeSignup carolSignupEnv racingSignup sampleStore
        ResponseWriter.fresh carolSignup).1.Status = some 500 := by
  refine ⟨by rfl, by decide, by rfl, by rfl, by rfl, by rfl⟩

/-- C6. Revocation is effective and its repetition is rejected: after a
`Logout` of the token that returns no error, no session row carries the token,
a second `Logout` returns `ErrInvalidToken` and so does `GetUserByToken`; and
`Logout` on a store with no session row for the token returns `ErrInvalidToken`
and leaves the store unchanged. -/
theorem logout_revokes_and_repeat_is_rejected (faultExec faultRows : Fault) (st : Store)
    (token : String) :
    (∀ st1, auth.Logout faultExec faultRows st token = (none, st1) →
      (∀ s ∈ st1.sessions, s.Token ≠ token) ∧
      auth.Logout none none st1 token = (some .ErrInvalidToken, st1) ∧
      ∀ (now : Time) (faultUser : Fault),
        auth.GetUserByToken none faultUser st1 now token = .error .ErrInvalidToken) ∧
    ((∀ s ∈ st.sessions, s.Token ≠ token) →
      auth.Logout none none st token = (some .ErrInvalidToken, st)) := by
  refine ⟨?_, auth.Logout_absent st token⟩
  intro st1 hok
  have hst1 := auth.Logout_ok_store faultExec faultRows st st1 token hok
  have hgone : ∀ s ∈ st1.sessions, s.Token ≠ token := by
    rw [hst1]
    exact Store.deleteSessionsByToken_gone st token
  refine ⟨hgone, auth.Logout_absent st1 token hgone, ?_⟩
  intro now faultUser
  unfold auth.GetUserByToken
  rw [Store.selectSessionUserID_noRows st1 token now
    (fun s hs htok => absurd htok (hgone s hs))]
  simp

/-- Instances of C6: revoking the token of `alice` in the sample store, and
revoking a token that no session carries. -/
theorem logout_revokes_and_repeat_is_rejected_witness :
    auth.Logout none none sampleStore "tok-a" = (none, revokedStore) ∧
    (∀ s ∈ revokedStore.sessions, s.Token ≠ "tok-a") ∧
    auth.Logout none none revokedStore "tok-a" = (some .ErrInvalidToken, revokedStore) ∧
    (∀ (now : Time) (faultUser : Fault),
      auth.GetUserByToken none faultUser revokedStore now "tok-a" = .error .ErrInvalidToken) ∧
    auth.Logout none none sampleStore "tok-z" = (some .ErrInvalidToken, sampleStore) :=
  have hrun : auth.Logout none none sampleStore "tok-a" = (none, revokedStore) := by decide
  have h := (logout_revokes_and_repeat_is_rejected none none sampleStore "tok-a").1
    revokedStore hrun
  ⟨hrun, h.1, h.2.1, h.2.2,
    (logout_revokes_and_repeat_is_rejected none none sampleStore "tok-z").2 (by decide)⟩

/-- C7. Failed password check creates nothing: for an existing enabled user and
a password that does not verify, `Login` returns `ErrInvalidCredentials` with the
store exactly as before, and the login handler responds 401. -/
theorem login_wrong_password_changes_nothing (bc : Bcrypt) (decode : String → Option LoginRequest)
    (env : auth.LoginEnv) (st : Store) (req : LoginRequest) (u : User)
    (w : ResponseWriter) (r : Request)
    (hwf : st.WF) (hfault : env.faultSelect = none)
    (hu : u ∈ st.users) (hemail : u.Email = req.Email) (hen : u.Disabled = false)
    (hpw : bc.CompareHashAndPassword u.HashedPassword req.Password = false)
    (hmethod : r.Method = "POST") (hbody : decode r.Body = some req) (hw : w.Status = none) :
    auth.Login bc env st req = (.error .ErrInvalidCredentials, st) ∧
    handlers.handleLogin bc decode env st w r
      = (httpError w "Invalid credentials" StatusUnauthorized, st) ∧
    (handlers.handleLogin bc decode env st w r).1.Status = some 401 := by
  have hsel : st.selectUserByEmail none req.Email = .ok u := by
    cases hfind : st.users.find? (fun x => x.Email == req.Email) with
    | none =>
      rw [List.find?_eq_none] at hfind
      exact absurd (by simpa using hemail) (hfind u hu)
    | some x =>
      have hx := List.mem_of_find?_eq_some hfind
      have hp : x.Email = req.Email := by simpa using List.find?_some hfind
      have hxu : x = u := List.inj_on_of_nodup_map hwf.2.1 hx hu (hp.trans hemail.symm)
      simp only [Store.selectUserByEmail, hfind, hxu]
  have hlogin : auth.Login bc env st req = (.error .ErrInvalidCredentials, st) := by
    simp only [auth.Login, hfault, hsel, hen, hpw, Bool.false_eq_true, if_false, Bool.not_false,
      if_true]
  have hhandler : handlers.handleLogin bc decode env st w r
      = (httpError w "Invalid credentials" StatusUnauthorized, st) := by
    simp [handlers.handleLogin, hmethod, hbody, hlogin, errors.Is]
  refine ⟨hlogin, hhandler, ?_⟩
  rw [hhandler]
  exact httpError_status w _ _ hw

/-- An instance of C7: `alice` with a wrong password, on the sample store. -/
theorem login_wrong_password_changes_nothing_witness :
    auth.Login sampleBcrypt aliceLoginEnv sampleStore
        { Email := "a@x.com", Password := "not-her-password" }
      = (.error .ErrInvalidCredentials, sampleStore) ∧
    handlers.handleLogin sampleBcrypt sampleDecodeLogin aliceLoginEnv sampleStore
        ResponseWriter.fresh wrongPasswordLogin
      = (httpError ResponseWriter.fresh "Invalid credentials" StatusUnauthorized, sampleStore) ∧
    (handlers.handleLogin sampleBcrypt sampleDecodeLogin aliceLoginEnv sampleStore
        ResponseWriter.fresh wrongPasswordLogin).1.Status = some 401 :=
  login_wrong_password_changes_nothing sampleBcrypt sampleDecodeLogin aliceLoginEnv sampleStore
    { Email := "a@x.com", Password := "not-her-password" } alice ResponseWriter.fresh
    wrongPasswordLogin (by decide) rfl (by decide) rfl rfl (by decide) rfl (by decide) rfl

/-- C8. Token acceptance order: `getTokenFromRequest` returns the value of the
cookie named `session_token` whenever one is present (whatever the header, and
even if the value is empty); with no such cookie and an `Authorization` header
starting with `Bearer ` it returns the header without that start; otherwise it
returns the empty string.  The copy in the handlers computes the same result. -/
theorem getTokenFromRequest_acceptance_order (r : Request) :
    (∀ c, r.Cookie "session_token" = some c → middleware.getTokenFromRequest r = c.Value) ∧
    (r.Cookie "session_token" = none →
      ∀ rest : String, r.HeaderGet "Authorization" = "Bearer " ++ rest →
        middleware.getTokenFromRequest r = rest) ∧
    (r.Cookie "session_token" = none →
      (¬ ∃ rest : String, r.HeaderGet "Authorization" = "Bearer " ++ rest) →
        middleware.getTokenFromRequest r = "") ∧
    handlers.getTokenFromRequest r = middleware.getTokenFromRequest r := by
  refine ⟨?_, ?_, ?_, rfl⟩
  · intro c hc
    simp only [middleware.getTokenFromRequest, hc]
  · intro hnone rest hrest
    simp only [middleware.getTokenFromRequest, hnone, hrest, strings.TrimPrefix_append]
    have hpre : strings.HasPrefix ("Bearer " ++ rest) "Bearer " = true :=
      (strings.HasPrefix_iff _ _).mpr ⟨rest, rfl⟩
    have hne : "Bearer " ++ rest ≠ "" := by
      intro h
      have hlen := congrArg (fun x : String => x.data.length) h
      simp only [String.data_append, List.length_append, List.length_cons, List.length_nil]
        at hlen
      omega
    simp [hpre, hne]
  · intro hnone hno
    have hpre : strings.HasPrefix (r.HeaderGet "Authorization") "Bearer " = false := by
      cases h : strings.HasPrefix (r.HeaderGet "Authorization") "Bearer " with
      | false => rfl
      | true => exact absurd ((strings.HasPrefix_iff _ _).mp h) hno
    simp [middleware.getTokenFromRequest, hnone, hpre]

/-- Instances of C8: a cookie with an empty value wins over a bearer header, a
bearer header alone gives its token, another scheme gives the empty string. -/
theorem getTokenFromRequest_acceptance_order_witness :
    middleware.getTokenFromRequest cookieRequest = "" ∧
    middleware.getTokenFromRequest bearerRequest = "tok-a" ∧
    middleware.getTokenFromRequest basicRequest = "" :=
  ⟨(getTokenFromRequest_acceptance_order cookieRequest).1
      { Name := "session_token", Value := "", Path := "", MaxAge := 0,
        HttpOnly := false, Secure := false, SameSite := .unset } (by decide),
   (getTokenFromRequest_acceptance_order bearerRequest).2.1 (by decide) "tok-a" (by decide),
   (getTokenFromRequest_acceptance_order basicRequest).2.2.1 (by decide)
     (fun h => absurd ((strings.HasPrefix_iff _ _).mpr h) (by decide))⟩

/-- C9. Auth gate: `RequireAuth` either calls the next handler with the
resolved user attached to the context, exactly when the extracted token is
non-empty and `GetUserByToken` succeeds, or it responds 401 "Unauthorized"
whatever the next handler is; the response is the same for an empty token and
for every error of `GetUserByToken`. -/
theorem requireAuth_collapses_failures (faultSession faultUser : Fault) (now : Time)
    (next : Handler) (st : Store) (w : ResponseWriter) (r : Request) :
    (∃ user, middleware.getTokenFromRequest r ≠ "" ∧
      auth.GetUserByToken faultSession faultUser st now (middleware.getTokenFromRequest r)
        = .ok user ∧
      middleware.RequireAuth faultSession faultUser now next st w r
        = next st w (r.WithContext (r.ctx.WithValue middleware.UserContextKey user)) ∧
      middleware.GetUserFromContext
        (r.WithContext (r.ctx.WithValue middleware.UserContextKey user)).ctx = some user) ∨
    ((middleware.getTokenFromRequest r = "" ∨
      ∃ err, auth.GetUserByToken faultSession faultUser st now (middleware.getTokenFromRequest r)
        = .error err) ∧
      (∀ next1 : Handler, middleware.RequireAuth faultSession faultUser now next1 st w r
        = (httpError w "Unauthorized" StatusUnauthorized, st)) ∧
      (w.Status = none →
        (middleware.RequireAuth faultSession faultUser now next st w r).1.Status = some 401)) := by
  by_cases htoken : middleware.getTokenFromRequest r = ""
  · right
    have hall : ∀ next1 : Handler, middleware.RequireAuth faultSession faultUser now next1 st w r
        = (httpError w "Unauthorized" StatusUnauthorized, st) := by
      intro next1
      simp only [middleware.RequireAuth, htoken, if_true]
    refine ⟨Or.inl htoken, hall, ?_⟩
    intro hw
    rw [hall next]
    exact httpError_status w _ _ hw
  · cases hres : auth.GetUserByToken faultSession faultUser st now
        (middleware.getTokenFromRequest r) with
    | error err =>
      right
      have hall : ∀ next1 : Handler,
          middleware.RequireAuth faultSession faultUser now next1 st w r
            = (httpError w "Unauthorized" StatusUnauthorized, st) := by
        intro next1
        simp only [middleware.RequireAuth, htoken, if_false, hres]
      refine ⟨Or.inr ⟨err, rfl⟩, hall, ?_⟩
      intro hw
      rw [hall next]
      exact httpError_status w _ _ hw
    | ok user =>
      left
      refine ⟨user, htoken, rfl, ?_, ?_⟩
      · simp only [middleware.RequireAuth, htoken, if_false, hres]
      · simp [middleware.GetUserFromContext, Request.WithContext, Context.WithValue,
          Context.Value]

/-- The scenarios of C9 on the sample store: no token, an unknown token, an
expired token, the token of a disabled user and a failing store all get the
same 401 response; the token of `alice` reaches the next handler. -/
theorem requireAuth_collapses_failures_witness :
    middleware.RequireAuth none none 99 whoami sampleStore ResponseWriter.fresh anonymousRequest
      = (httpError ResponseWriter.fresh "Unauthorized" StatusUnauthorized, sampleStore) ∧
    middleware.RequireAuth none none 99 whoami sampleStore ResponseWriter.fresh
        unknownTokenRequest
      = (httpError ResponseWriter.fresh "Unauthorized" StatusUnauthorized, sampleStore) ∧
    middleware.RequireAuth none none 100 whoami sampleStore ResponseWriter.fresh bearerRequest
      = (httpError ResponseWriter.fresh "Unauthorized" StatusUnauthorized, sampleStore) ∧
    middleware.RequireAuth none none 99 whoami sampleStore ResponseWriter.fresh
        disabledTokenRequest
      = (httpError ResponseWriter.fresh "Unauthorized" StatusUnauthorized, sampleStore) ∧
    middleware.RequireAuth (some (.failure "connection refused")) none 99 whoami sampleStore
        ResponseWriter.fresh bearerRequest
      = (httpError ResponseWriter.fresh "Unauthorized" StatusUnauthorized, sampleStore) ∧
    (httpError ResponseWriter.fresh "Unauthorized" StatusUnauthorized).Status = some 401 ∧
    middleware.RequireAuth none none 99 whoami sampleStore ResponseWriter.fresh bearerRequest
      = (ResponseWriter.fresh.Write (.jsonUser { alice with HashedPassword := "" }),
         sampleStore) := by
  refine ⟨?_, by rfl, by rfl, by rfl, by rfl, by rfl, by rfl⟩
  exact (requireAuth_collapses_failures none none 99 whoami sampleStore ResponseWriter.fresh
    anonymousRequest).elim (fun h => h.elim (fun _ hu => absurd rfl hu.1)) (fun h => h.2.1 whoami)

/-- C10. A reaper tick at `now` deletes every session with `expires_at < now`,
keeps every other session (in particular those with `expires_at > now`) as it
is, and leaves the users untouched; `GetUserByToken` evaluated at `now` gives
the same result before and after the tick, for every token.  When the delete
itself fails the store is unchanged. -/
theorem cleanupExpiredSessions_removes_only_expired (faultExec faultRows : Fault) (st : Store)
    (now : Time) :
    (∀ s, s ∈ (worker.cleanupExpiredSessions none faultRows st now).1.sessions ↔
      s ∈ st.sessions ∧ ¬ s.ExpiresAt < now) ∧
    ((worker.cleanupExpiredSessions none faultRows st now).1.sessions).Sublist st.sessions ∧
    (worker.cleanupExpiredSessions faultExec faultRows st now).1.users = st.users ∧
    (∀ (faultSession faultUser : Fault) (token : String),
      auth.GetUserByToken faultSession faultUser
          (worker.cleanupExpiredSessions faultExec faultRows st now).1 now token
        = auth.GetUserByToken faultSession faultUser st now token) := by
  have hstore : ∀ fr : Fault, (worker.cleanupExpiredSessions none fr st now).1
      = (st.deleteExpiredSessions now).1 := by
    intro fr
    unfold worker.cleanupExpiredSessions
    cases fr with
    | some e => rfl
    | none =>
      by_cases hpos : (st.deleteExpiredSessions now).2 > 0
      · simp only [hpos, if_true]
      · simp only [hpos, if_false]
  have hresolve : ∀ (faultSession faultUser : Fault) (token : String),
      auth.GetUserByToken faultSession faultUser (st.deleteExpiredSessions now).1 now token
        = auth.GetUserByToken faultSession faultUser st now token := by
    intro faultSession faultUser token
    unfold auth.GetUserByToken
    rw [Store.selectSessionUserID_deleteExpired]
    rfl
  refine ⟨?_, ?_, ?_, ?_⟩
  · intro s
    rw [hstore]
    simp [Store.deleteExpiredSessions, List.mem_filter]
  · rw [hstore]
    exact List.filter_sublist _
  · cases faultExec with
    | some e => rfl
    | none => rw [hstore]; rfl
  · intro faultSession faultUser token
    cases faultExec with
    | some e => rfl
    | none => rw [hstore]; exact hresolve faultSession faultUser token

/-- The scenario of C10: after a tick at instant two hours only the session that
expired a minute before is gone, and the surviving token still resolves. -/
theorem cleanupExpiredSessions_removes_only_expired_witness :
    (worker.cleanupExpiredSessions none none reaperStore 7200000000000).1.sessions
      = [{ ID := 31, UserID := 1, Token := "tok-live", ExpiresAt := 10800000000000,
           CreatedAt := 0 }] ∧
    auth.GetUserByToken none none
        (worker.cleanupExpiredSessions none none reaperStore 7200000000000).1
        7200000000000 "tok-live" = .ok { alice with HashedPassword := "" } ∧
    auth.GetUserByToken none none
        (worker.cleanupExpiredSessions none none reaperStore 7200000000000).1
        7200000000000 "tok-old" = .error .ErrInvalidToken :=
  have h := (cleanupExpiredSessions_removes_only_expired none none reaperStore
    7200000000000).2.2.2
  ⟨by rfl, (h none none "tok-live").trans (by rfl), (h none none "tok-old").trans (by rfl)⟩

/-- C11. Sequential email uniqueness: on a store in which no two users share an
email, `CreateUser` returns `ErrEmailTaken` and leaves the store unchanged when
some user has exactly that email; otherwise, when hashing and insert succeed, it
adds exactly one user with that email, that display name, `disabled = false`
and the hasher's output as stored password; in every case no two users share an
email afterwards. -/
theorem createUser_sequential_email_uniqueness (bc : Bcrypt) (env : auth.CreateUserEnv)
    (st : Store) (req : SignupRequest)
    (hemails : (st.users.map (fun u => u.Email)).Nodup)
    (hfault : env.faultCount = none) :
    ((∃ u ∈ st.users, u.Email = req.Email) →
      auth.CreateUser bc env st req = (.error .ErrEmailTaken, st)) ∧
    ((∀ u ∈ st.users, u.Email ≠ req.Email) →
      ∀ hashed : String,
        bc.GenerateFromPassword req.Password Bcrypt.DefaultCost env.salt = .ok hashed →
        env.faultInsert = none → (∀ u ∈ st.users, u.ID ≠ env.newID) →
        ∃ user st1, auth.CreateUser bc env st req = (.ok user, st1) ∧
          st1.users = st.users ++ [user] ∧ st1.sessions = st.sessions ∧
          user.Email = req.Email ∧ user.DisplayName = req.DisplayName ∧
          user.Disabled = false ∧ user.HashedPassword = hashed) ∧
    ((auth.CreateUser bc env st req).2.users.map (fun u => u.Email)).Nodup := by
  refine ⟨?_, ?_, ?_⟩
  · rintro ⟨u, hu, hue⟩
    have hpos : (st.users.filter (fun x => x.Email == req.Email)).length > 0 := by
      apply List.length_pos_of_mem (a := u)
      rw [List.mem_filter]
      exact ⟨hu, by simp [hue]⟩
    simp only [auth.CreateUser, auth.CreateUserWith, Store.countUsersByEmail, hfault, hpos,
      if_true]
  · intro hfree hashed hhash hins hid
    have hzero : st.users.filter (fun x => x.Email == req.Email) = [] := by
      rw [List.filter_eq_nil_iff]
      intro x hx
      simp [hfree x hx]
    have hid1 : st.users.any (fun x => x.ID == env.newID) = false := by
      rw [Bool.eq_false_iff]
      intro hany
      obtain ⟨x, hx, hxe⟩ := List.any_eq_true.mp hany
      exact hid x hx (by simpa using hxe)
    have hmail1 : st.users.any (fun x => x.Email == req.Email) = false := by
      rw [Bool.eq_false_iff]
      intro hany
      obtain ⟨x, hx, hxe⟩ := List.any_eq_true.mp hany
      exact hfree x hx (by simpa using hxe)
    refine ⟨{ ID := env.newID, Email := req.Email, HashedPassword := hashed,
              DisplayName := req.DisplayName, CreatedAt := env.nowCreated,
              UpdatedAt := env.nowUpdated, LastLogin := none, Disabled := false },
            { st with users := st.users ++
                [{ ID := env.newID, Email := req.Email, HashedPassword := hashed,
                   DisplayName := req.DisplayName, CreatedAt := env.nowCreated,
                   UpdatedAt := env.nowUpdated, LastLogin := none, Disabled := false }] },
            ?_, rfl, rfl, rfl, rfl, rfl, rfl⟩
    simp only [auth.CreateUser, auth.CreateUserWith, Store.countUsersByEmail, hfault, hzero,
      List.length_nil, gt_iff_lt, Nat.lt_irrefl, if_false, hhash, id, Store.insertUser, hins,
      hid1, hmail1, Bool.false_eq_true]
  · rcases auth.CreateUser_store bc env st req with hsame | ⟨user, hins⟩
    · rw [hsame]
      exact hemails
    · obtain ⟨hst1, _, hfresh⟩ := Store.insertUser_ok st _ user hins
      rw [hst1]
      exact nodup_map_append_fresh _ _ _ hemails hfresh

/-- Instances of C11 on the sample store: a signup with the email of `alice` is
refused and changes nothing; a signup with that email in another case adds one
user, whose stored password is the digest and not the plaintext. -/
theorem createUser_sequential_email_uniqueness_witness :
    auth.CreateUser sampleBcrypt carolSignupEnv sampleStore takenSignupRequest
      = (.error .ErrEmailTaken, sampleStore) ∧
    (∃ user st1, auth.CreateUser sampleBcrypt carolSignupEnv sampleStore upperCaseSignupRequest
        = (.ok user, st1) ∧
      st1.users = sampleStore.users ++ [user] ∧ st1.sessions = sampleStore.sessions ∧
      user.Email = "A@x.com" ∧ user.DisplayName = "Upper A" ∧
      user.Disabled = false ∧ user.HashedPassword = "bcrypt:pw12345678") ∧
    auth.CreateUser sampleBcrypt carolSignupEnv sampleStore upperCaseSignupRequest
      = (.ok upperCaseUser, { sampleStore with users := [alice, bob, upperCaseUser] }) ∧
    upperCaseUser.HashedPassword ≠ upperCaseSignupRequest.Password ∧
    ((auth.CreateUser sampleBcrypt carolSignupEnv sampleStore
        upperCaseSignupRequest).2.users.map (fun u => u.Email)).Nodup :=
  ⟨(createUser_sequential_email_uniqueness sampleBcrypt carolSignupEnv sampleStore
      takenSignupRequest (by decide) rfl).1 ⟨alice, by decide, rfl⟩,
   (createUser_sequential_email_uniqueness sampleBcrypt carolSignupEnv sampleStore
      upperCaseSignupRequest (by decide) rfl).2.1 (by decide) "bcrypt:pw12345678" rfl rfl
      (by decide),
   by rfl, by decide,
   (createUser_sequential_email_uniqueness sampleBcrypt carolSignupEnv sampleStore
      upperCaseSignupRequest (by decide) rfl).2.2⟩

end GoAuth
